import Mathlib

set_option maxHeartbeats 1000000

/-! # Shallow embedding of the Todo-List API

This file embeds src/models.py, src/schemas.py and the request handlers of
src/main.py.  The database session is modelled as an explicit record of table
contents threaded through each operation; the SQLAlchemy query primitives used
by the handlers (filter / first / count / offset / limit) are modelled as list
operations over the rows in insertion order, which is the order in which an
unordered scan of a fresh table presents rows — the handlers issue no ORDER BY.
Raising fastapi.HTTPException is modelled with Except: a handler that raises
before any write returns the state unchanged together with the error.
The module auth.py is imported by src/main.py but is not part of src/, so its
four functions are modelled from the spec; see their doc comments. -/

/-- Row of the users table (src/models.py, class User). -/
structure User where
  id : Nat
  email : String
  password : String
  name : String
  deriving DecidableEq

/-- Row of the todo table (src/models.py, class Todo). -/
structure Todo where
  id : Nat
  user_id : Nat
  title : String
  description : String
  deriving DecidableEq

/-- Request body of POST /register (src/schemas.py, UserCreate). -/
structure UserCreate where
  name : String
  email : String
  password : String
  deriving DecidableEq

/-- Request body of POST /todos and PUT /todos/id (src/schemas.py, TodoCreate). -/
structure TodoCreate where
  title : String
  description : String
  deriving DecidableEq

/-- Response body of POST /login (src/schemas.py, Token). -/
structure Token where
  token : String
  deriving DecidableEq

/-- Response of GET /todos (src/schemas.py, TodoListResponse; the handler
get_todos in src/main.py returns a dict with exactly these keys). -/
structure TodoListResponse where
  data : List Todo
  page : Int
  limit : Int
  total : Nat
  deriving DecidableEq

/-- fastapi.HTTPException as raised by the handlers in src/main.py. -/
structure HTTPException where
  status_code : Nat
  detail : String
  deriving DecidableEq

/-- The storage state: contents of the two tables plus the next serial primary
key of each, which the storage assigns on insert. -/
structure DB where
  users : List User
  todos : List Todo
  next_user_id : Nat
  next_todo_id : Nat
  deriving DecidableEq

/-- Splits a character list at the first separator character, returning the
part before it and the part after it; none when no separator occurs. -/
def splitAtSep : List Char → Option (List Char × List Char)
  | [] => none
  | c :: cs =>
    if c = '$' then some ([], cs)
    else
      match splitAtSep cs with
      | none => none
      | some (a, b) => some (c :: a, b)

/-- Modelled from the spec: auth.py (Credential Hasher) is imported by
src/main.py but absent from src/.  Per the spec, hash(plaintext) embeds a
per-call random salt in its output; the salt is made an explicit argument here
to externalise the randomness, and the keyed digest is modelled as the
plaintext itself, separated from the salt by a separator character that a
generated salt never contains. -/
def hash_password (salt plaintext : String) : String :=
  salt ++ "$" ++ plaintext

/-- Modelled from the spec: auth.py is absent from src/.  Per the spec,
verify(plaintext, opaque_hash) recomputes the hash using the salt embedded in
the opaque hash and compares; it returns false, and never raises, on malformed
hash input (input with no embedded salt separator). -/
def verify_password (plaintext hashed : String) : Bool :=
  match splitAtSep hashed.data with
  | none => false
  | some (salt, _) => hashed == hash_password (String.mk salt) plaintext

/-- Modelled from the spec: decoding of the subject claim of a token — the
decimal digits following the token tag.  Empty or non-digit subjects are
invalid. -/
def decodeSub (l : List Char) : Option Nat :=
  if l.isEmpty then none
  else if l.all (fun c => c.isDigit) then
    some (l.foldl (fun n c => 10 * n + (c.toNat - 48)) 0)
  else none

/-- Modelled from the spec: auth.py is absent from src/.  issue(subject_id)
produces a token binding the subject id; the signature and expiration are
abstracted away, leaving the fixed tag followed by the decimal subject id
(src/main.py passes sub = str(db_user.id)). -/
def create_access_token (sub : Nat) : String :=
  "token:" ++ toString sub

/-- Modelled from the spec: auth.py is absent from src/.  verify(token_string)
returns the subject id when the token is well formed and none otherwise,
never raising. -/
def verify_token (t : String) : Option Nat :=
  if "token:".data.isPrefixOf t.data then decodeSub (t.data.drop 6) else none

/-- Fuel-bounded core of Python str.replace("Bearer ", ""): removes
occurrences of the seven characters of the Bearer scheme prefix left to right,
non-overlapping, scanning the remainder after each removal.  The fuel bounds
the recursion depth and is irrelevant once at least the length of the list. -/
def removeBearerAux : Nat → List Char → List Char
  | 0, l => l
  | _ + 1, [] => []
  | n + 1, c :: cs =>
    if "Bearer ".data.isPrefixOf (c :: cs) then removeBearerAux n (cs.drop 6)
    else c :: removeBearerAux n cs

/-- authorization.replace("Bearer ", "") as written in src/main.py line 68:
Python str.replace replaces every occurrence of the substring, not only a
leading prefix. -/
def removeBearer (s : String) : String :=
  String.mk (removeBearerAux s.data.length s.data)

/-- POST /register (src/main.py, register).  The per-call random salt used by
the password hash is an explicit argument.  On a duplicate email the handler
raises before any write, so the state comes back unchanged with the error. -/
def register (db : DB) (user : UserCreate) (salt : String) :
    DB × Except HTTPException User :=
  match db.users.find? (fun u => u.email == user.email) with
  | some _ => (db, .error ⟨400, "Email already registered"⟩)
  | none =>
    let new_user : User :=
      ⟨db.next_user_id, user.email, hash_password salt user.password, user.name⟩
    (⟨db.users ++ [new_user], db.todos, db.next_user_id + 1, db.next_todo_id⟩,
      .ok new_user)

/-- POST /login (src/main.py, login): finds the user by email and rejects with
one fixed 401 response when the user is missing or the password fails; on
success returns a token carrying the found user's id. -/
def login (db : DB) (email password : String) : Except HTTPException Token :=
  match db.users.find? (fun u => u.email == email) with
  | none => .error ⟨401, "Invalid email or password"⟩
  | some db_user =>
    if verify_password password db_user.password then
      .ok ⟨create_access_token db_user.id⟩
    else .error ⟨401, "Invalid email or password"⟩

/-- The dependency get_current_user (src/main.py lines 65-75): requires the
Bearer prefix, strips the scheme with str.replace (removing every occurrence),
verifies the token, and loads the user by the subject id. -/
def get_current_user (authorization : String) (db : DB) :
    Except HTTPException User :=
  if "Bearer ".data.isPrefixOf authorization.data then
    match verify_token (removeBearer authorization) with
    | none => .error ⟨401, "Invalid token"⟩
    | some user_id =>
      match db.users.find? (fun u => u.id == user_id) with
      | none => .error ⟨401, "User not found"⟩
      | some user => .ok user
  else .error ⟨401, "Invalid authorization header"⟩

/-- POST /todos (src/main.py, create_todo): always inserts a new row owned by
the resolved caller; the storage assigns the next serial id. -/
def create_todo (db : DB) (todo : TodoCreate) (user : User) : DB × Todo :=
  let new_todo : Todo := ⟨db.next_todo_id, user.id, todo.title, todo.description⟩
  (⟨db.users, db.todos ++ [new_todo], db.next_user_id, db.next_todo_id + 1⟩,
    new_todo)

/-- db.query(Todo).filter(Todo.user_id == user.id): the caller's rows in
insertion order. -/
def ownerTodos (db : DB) (user : User) : List Todo :=
  db.todos.filter (fun t => t.user_id == user.id)

/-- The offset(skip).limit(limit) primitive of the storage collaborator,
applied to the filtered rows.  The handler passes skip and limit through as
arbitrary integers; how the storage treats out-of-range values is its own
policy, modelled totally here (a negative offset skips nothing, a
non-positive limit yields no rows). -/
def query_offset_limit (rows : List Todo) (skip limit : Int) : List Todo :=
  (rows.drop skip.toNat).take limit.toNat

/-- GET /todos (src/main.py lines 87-108): counts the caller's rows, computes
skip = (page - 1) * limit with no validation of page or limit, queries with
offset and limit, and echoes page and limit beside the total. -/
def get_todos (db : DB) (user : User) (page limit : Int) : TodoListResponse :=
  let total := (ownerTodos db user).length
  let skip := (page - 1) * limit
  let todos := query_offset_limit (ownerTodos db user) skip limit
  ⟨todos, page, limit, total⟩

/-- PUT /todos/todo_id (src/main.py lines 111-122): finds the row by id alone,
404 when absent, 403 when owned by another user, otherwise overwrites title
and description in place.  Both failures raise before any write. -/
def update_todo (db : DB) (todo_id : Nat) (todo : TodoCreate) (user : User) :
    DB × Except HTTPException Todo :=
  match db.todos.find? (fun t => t.id == todo_id) with
  | none => (db, .error ⟨404, "Todo not found"⟩)
  | some db_todo =>
    if db_todo.user_id == user.id then
      let updated : Todo := ⟨db_todo.id, db_todo.user_id, todo.title, todo.description⟩
      (⟨db.users, db.todos.map (fun t => if t.id == todo_id then updated else t),
        db.next_user_id, db.next_todo_id⟩, .ok updated)
    else (db, .error ⟨403, "Forbidden"⟩)

/-- DELETE /todos/todo_id (src/main.py lines 125-132): same existence and
ownership checks as update; on success removes the row by primary key. -/
def delete_todo (db : DB) (todo_id : Nat) (user : User) :
    DB × Except HTTPException Unit :=
  match db.todos.find? (fun t => t.id == todo_id) with
  | none => (db, .error ⟨404, "Todo not found"⟩)
  | some db_todo =>
    if db_todo.user_id == user.id then
      (⟨db.users, db.todos.filter (fun t => !(t.id == todo_id)),
        db.next_user_id, db.next_todo_id⟩, .ok ())
    else (db, .error ⟨403, "Forbidden"⟩)

/-- Concrete user fixture. -/
def user1 : User := ⟨1, "a@b", "h1", "A"⟩

/-- Concrete user fixture. -/
def user2 : User := ⟨2, "c@d", "h2", "B"⟩

/-- Concrete todo fixture owned by user1. -/
def todoA : Todo := ⟨1, 1, "a", ""⟩

/-- Concrete todo fixture owned by user1. -/
def todoB : Todo := ⟨2, 1, "b", ""⟩

/-- Concrete todo fixture owned by user2. -/
def todoC : Todo := ⟨3, 2, "c", ""⟩

/-- Concrete store fixture with two users and three todos. -/
def db0 : DB := ⟨[user1, user2], [todoA, todoB, todoC], 3, 4⟩

/-- Concrete store fixture holding 25 todos of user1. -/
def db25 : DB := ⟨[user1], (List.range 25).map (fun i => ⟨i + 1, 1, "t", ""⟩), 2, 26⟩

/-- C10: the list handler performs no validation of its pagination parameters:
for every page ≤ 0 and positive limit the computed skip = (page - 1) * limit is
negative, and get_todos always returns the record built from the storage query
at exactly that unclamped skip and the unclamped limit, echoing both inputs —
no error outcome exists on this path for non-positive page or limit. -/
theorem c10_no_pagination_validation (db : DB) (user : User) (page limit : Int) :
    (page ≤ 0 → 1 ≤ limit → (page - 1) * limit < 0) ∧
    get_todos db user page limit =
      ⟨query_offset_limit (ownerTodos db user) ((page - 1) * limit) limit,
        page, limit, (ownerTodos db user).length⟩ := by
  refine ⟨fun hp hl => ?_, rfl⟩
  exact mul_neg_of_neg_of_pos (by omega) (by omega)

/-- Witness for C10 at page 0, limit 10 on the concrete store. -/
theorem c10_no_pagination_validation_witness :
    (((0 : Int) ≤ 0 → (1 : Int) ≤ 10 → ((0 : Int) - 1) * 10 < 0) ∧
      get_todos db0 user1 0 10 =
        ⟨query_offset_limit (ownerTodos db0 user1) (((0 : Int) - 1) * 10) 10,
          0, 10, (ownerTodos db0 user1).length⟩) ∧
    ((0 : Int) - 1) * 10 < 0 ∧
    get_todos db0 user1 0 10 = ⟨[todoA, todoB], 0, 10, 2⟩ :=
  ⟨c10_no_pagination_validation db0 user1 0 10,
    (c10_no_pagination_validation db0 user1 0 10).1 (by decide) (by decide),
    by decide⟩

/-- C3: pagination arithmetic: for positive page and limit, the returned data
is the owner's records with the first (page - 1) * limit skipped, at most
limit records are returned, and total is the owner's full count regardless of
page and limit; concretely with 25 todos and limit 10, pages 1, 3 and 4
return 10, 5 and 0 items and total is 25 on every page. -/
theorem c3_pagination_arithmetic (db : DB) (user : User) (page limit : Int)
    (_hp : 1 ≤ page) (hl : 1 ≤ limit) :
    ((get_todos db user page limit).data =
      ((ownerTodos db user).drop (((page - 1) * limit).toNat)).take limit.toNat ∧
    ((get_todos db user page limit).data.length : Int) ≤ limit ∧
    (get_todos db user page limit).total = (ownerTodos db user).length) ∧
    ((get_todos db25 user1 1 10).data.length = 10 ∧
      (get_todos db25 user1 3 10).data.length = 5 ∧
      (get_todos db25 user1 4 10).data.length = 0 ∧
      (get_todos db25 user1 1 10).total = 25 ∧
      (get_todos db25 user1 3 10).total = 25 ∧
      (get_todos db25 user1 4 10).total = 25) := by
  refine ⟨⟨rfl, ?_, rfl⟩, by decide, by decide, by decide, by decide, by decide, by decide⟩
  have h3 : (get_todos db user page limit).data.length ≤ limit.toNat := by
    simp [get_todos, query_offset_limit, List.length_take]
  omega

/-- Witness for C3 at page 3, limit 10 on the 25-todo store. -/
theorem c3_pagination_arithmetic_witness :
    (1 : Int) ≤ 3 ∧ (1 : Int) ≤ 10 ∧
    (((get_todos db25 user1 3 10).data =
      ((ownerTodos db25 user1).drop ((((3 : Int) - 1) * 10).toNat)).take (10 : Int).toNat ∧
    ((get_todos db25 user1 3 10).data.length : Int) ≤ 10 ∧
    (get_todos db25 user1 3 10).total = (ownerTodos db25 user1).length) ∧
    ((get_todos db25 user1 1 10).data.length = 10 ∧
      (get_todos db25 user1 3 10).data.length = 5 ∧
      (get_todos db25 user1 4 10).data.length = 0 ∧
      (get_todos db25 user1 1 10).total = 25 ∧
      (get_todos db25 user1 3 10).total = 25 ∧
      (get_todos db25 user1 4 10).total = 25)) :=
  ⟨by decide, by decide, c3_pagination_arithmetic db25 user1 3 10 (by decide) (by decide)⟩

/-- C2: login does not leak user existence: when no user has the email, and
when a user is found but password verification fails, login returns the one
identical Unauthorized outcome (status 401, same message); on success the
returned token is bound to the found user's id. -/
theorem c2_login_no_user_enumeration (db : DB) (email password : String) :
    ((∀ u ∈ db.users, u.email ≠ email) →
      login db email password = .error ⟨401, "Invalid email or password"⟩) ∧
    (∀ u, db.users.find? (fun v => v.email == email) = some u →
      verify_password password u.password = false →
      login db email password = .error ⟨401, "Invalid email or password"⟩) ∧
    (∀ u, db.users.find? (fun v => v.email == email) = some u →
      verify_password password u.password = true →
      login db email password = .ok ⟨create_access_token u.id⟩) := by
  refine ⟨fun h => ?_, fun u hu hv => ?_, fun u hu hv => ?_⟩
  · have hnone : db.users.find? (fun v => v.email == email) = none := by
      rw [List.find?_eq_none]
      intro u hu
      simpa using h u hu
    simp [login, hnone]
  · simp [login, hu, hv]
  · simp [login, hu, hv]

/-- Witness for C2: unknown email and wrong password on a concrete store both
give the identical 401 outcome. -/
theorem c2_login_no_user_enumeration_witness :
    ((∀ u ∈ db0.users, u.email ≠ "z@z") ∧
      login db0 "z@z" "pw" = .error ⟨401, "Invalid email or password"⟩) ∧
    (db0.users.find? (fun v => v.email == "a@b") = some user1 ∧
      verify_password "wrong" user1.password = false ∧
      login db0 "a@b" "wrong" = .error ⟨401, "Invalid email or password"⟩) :=
  ⟨⟨by decide, (c2_login_no_user_enumeration db0 "z@z" "pw").1 (by decide)⟩,
    ⟨by decide, by decide,
      (c2_login_no_user_enumeration db0 "a@b" "wrong").2.1 user1 (by decide) (by decide)⟩⟩

/-- C6: registration conflict atomicity: when some stored user already has the
email, register returns the Conflict outcome (400, email already registered)
with the store unchanged — no record written; on a fresh email it hashes the
password, appends the one new user with the next assigned id, and returns that
record. -/
theorem c6_register_conflict_atomicity (db : DB) (u : UserCreate) (salt : String) :
    ((∃ eu ∈ db.users, eu.email = u.email) →
      register db u salt = (db, .error ⟨400, "Email already registered"⟩)) ∧
    ((∀ eu ∈ db.users, eu.email ≠ u.email) →
      register db u salt =
        (⟨db.users ++ [⟨db.next_user_id, u.email, hash_password salt u.password, u.name⟩],
          db.todos, db.next_user_id + 1, db.next_todo_id⟩,
          .ok ⟨db.next_user_id, u.email, hash_password salt u.password, u.name⟩)) := by
  constructor
  · rintro ⟨eu, hmem, heq⟩
    have hsome : (db.users.find? (fun v => v.email == u.email)).isSome = true := by
      rw [List.find?_isSome]
      exact ⟨eu, hmem, by simp [heq]⟩
    obtain ⟨v, hv⟩ := Option.isSome_iff_exists.mp hsome
    simp [register, hv]
  · intro h
    have hnone : db.users.find? (fun v => v.email == u.email) = none := by
      rw [List.find?_eq_none]
      intro x hx
      simpa using h x hx
    simp [register, hnone]

/-- Witness for C6: a duplicate registration on the concrete store conflicts
and leaves the store unchanged, and a fresh registration appends one user. -/
theorem c6_register_conflict_atomicity_witness :
    ((∃ eu ∈ db0.users, eu.email = "a@b") ∧
      register db0 ⟨"N", "a@b", "pw"⟩ "s" = (db0, .error ⟨400, "Email already registered"⟩)) ∧
    ((∀ eu ∈ db0.users, eu.email ≠ "n@n") ∧
      register db0 ⟨"N", "n@n", "pw"⟩ "s" =
        (⟨db0.users ++ [⟨3, "n@n", hash_password "s" "pw", "N"⟩],
          db0.todos, 4, 4⟩, .ok ⟨3, "n@n", hash_password "s" "pw", "N"⟩)) :=
  ⟨⟨by decide, (c6_register_conflict_atomicity db0 ⟨"N", "a@b", "pw"⟩ "s").1 (by decide)⟩,
    ⟨by decide, (c6_register_conflict_atomicity db0 ⟨"N", "n@n", "pw"⟩ "s").2 (by decide)⟩⟩

/-- Shared lemma: the find-by-id query returns none exactly when no row has
the id. -/
theorem find_by_id_none_iff (db : DB) (todo_id : Nat) :
    db.todos.find? (fun t => t.id == todo_id) = none ↔
      ∀ t ∈ db.todos, t.id ≠ todo_id := by
  rw [List.find?_eq_none]
  simp

/-- C1: ownership enforcement on todos: update and delete fail with NotFound
(404) exactly when no todo with the id exists, and with Forbidden (403)
exactly when such a todo exists but is owned by a different user (existence is
revealed to non-owners); list returns only todos owned by the caller. -/
theorem c1_ownership_enforcement (db : DB) (caller : User)
    (huniq : ∀ t1 ∈ db.todos, ∀ t2 ∈ db.todos, t1.id = t2.id → t1 = t2)
    (todo_id : Nat) (body : TodoCreate) :
    ((update_todo db todo_id body caller).2 = .error ⟨404, "Todo not found"⟩ ↔
      ∀ t ∈ db.todos, t.id ≠ todo_id) ∧
    ((update_todo db todo_id body caller).2 = .error ⟨403, "Forbidden"⟩ ↔
      ∃ t ∈ db.todos, t.id = todo_id ∧ t.user_id ≠ caller.id) ∧
    ((delete_todo db todo_id caller).2 = .error ⟨404, "Todo not found"⟩ ↔
      ∀ t ∈ db.todos, t.id ≠ todo_id) ∧
    ((delete_todo db todo_id caller).2 = .error ⟨403, "Forbidden"⟩ ↔
      ∃ t ∈ db.todos, t.id = todo_id ∧ t.user_id ≠ caller.id) ∧
    (∀ page limit : Int, ∀ t ∈ (get_todos db caller page limit).data,
      t.user_id = caller.id) := by
  have hlist : ∀ page limit : Int, ∀ t ∈ (get_todos db caller page limit).data,
      t.user_id = caller.id := by
    intro page limit t ht
    have h1 : t ∈ ownerTodos db caller := by
      have h2 := List.mem_of_mem_take ht
      exact List.mem_of_mem_drop h2
    have := (List.mem_filter.mp h1).2
    simpa using this
  cases hfind : db.todos.find? (fun t => t.id == todo_id) with
  | none =>
    have hno : ∀ t ∈ db.todos, t.id ≠ todo_id := (find_by_id_none_iff db todo_id).mp hfind
    have hnoex : ¬ ∃ t ∈ db.todos, t.id = todo_id ∧ t.user_id ≠ caller.id := by
      rintro ⟨t, hmem, hid, _⟩
      exact hno t hmem hid
    refine ⟨?_, ?_, ?_, ?_, hlist⟩ <;>
      simp only [update_todo, delete_todo, hfind] <;> simp_all
  | some found =>
    have hid : found.id = todo_id := by simpa using List.find?_some hfind
    have hmem : found ∈ db.todos := List.mem_of_find?_eq_some hfind
    have hnoall : ¬ ∀ t ∈ db.todos, t.id ≠ todo_id := fun h => h found hmem hid
    by_cases hown : found.user_id = caller.id
    · have hnoex : ¬ ∃ t ∈ db.todos, t.id = todo_id ∧ t.user_id ≠ caller.id := by
        rintro ⟨t, htmem, htid, htown⟩
        exact htown (huniq t htmem found hmem (htid.trans hid.symm) ▸ hown)
      refine ⟨?_, ?_, ?_, ?_, hlist⟩ <;>
        simp only [update_todo, delete_todo, hfind] <;> simp_all
    · have hex : ∃ t ∈ db.todos, t.id = todo_id ∧ t.user_id ≠ caller.id :=
        ⟨found, hmem, hid, hown⟩
      refine ⟨?_, ?_, ?_, ?_, hlist⟩ <;>
        simp only [update_todo, delete_todo, hfind] <;> simp_all

/-- Concrete store fixture: user1 with a single todo, used to exhibit a full
first page. -/
def dbSmall : DB := ⟨[user1], [todoA], 2, 2⟩

/-- C4 counterexample: create followed by list with page = 1 and limit = 1 on
an owner who already holds one todo does NOT include the created todo — the
claim demands inclusion for every prior store state and every limit ≥ 1, but
the created row is appended after the owner's existing rows and a full first
page excludes it (count 0, not 1). -/
theorem c4_counterexample :
    (create_todo dbSmall ⟨"y", ""⟩ user1).2 ∉
      (get_todos (create_todo dbSmall ⟨"y", ""⟩ user1).1 user1 1 1).data ∧
    (get_todos (create_todo dbSmall ⟨"y", ""⟩ user1).1 user1 1 1).data.count
      (create_todo dbSmall ⟨"y", ""⟩ user1).2 = 0 := by
  decide

/-- C4 amended: for every prior store state whose todo ids are below the next
assigned id, create followed by an immediate list with page = 1 includes the
created todo exactly once, provided limit is at least the owner's todo count
after the creation (without this capacity bound the new row falls off the
first page). -/
theorem c4_create_list_roundtrip (db : DB) (user : User) (body : TodoCreate)
    (limit : Int)
    (hfresh : ∀ t ∈ db.todos, t.id < db.next_todo_id)
    (hcap : (ownerTodos db user).length + 1 ≤ limit.toNat) :
    (get_todos (create_todo db body user).1 user 1 limit).data.count
      (create_todo db body user).2 = 1 := by
  have howner : ownerTodos (create_todo db body user).1 user =
      ownerTodos db user ++ [(create_todo db body user).2] := by
    simp [create_todo, ownerTodos, List.filter_append]
  have hdata : (get_todos (create_todo db body user).1 user 1 limit).data =
      ownerTodos db user ++ [(create_todo db body user).2] := by
    simp only [get_todos, query_offset_limit]
    rw [howner]
    have hskip : (((1 : Int) - 1) * limit).toNat = 0 := by norm_num
    rw [hskip, List.drop_zero]
    apply List.take_of_length_le
    rw [List.length_append]
    simpa using hcap
  rw [hdata, List.count_append]
  have hnotmem : (create_todo db body user).2 ∉ ownerTodos db user := by
    intro hmem
    have h2 : (create_todo db body user).2 ∈ db.todos := (List.mem_filter.mp hmem).1
    have h3 := hfresh _ h2
    simp [create_todo] at h3
  rw [List.count_eq_zero.mpr hnotmem]
  simp

/-- Witness for amended C4: with capacity for two rows, the created todo
appears exactly once on the first page. -/
theorem c4_create_list_roundtrip_witness :
    (∀ t ∈ dbSmall.todos, t.id < dbSmall.next_todo_id) ∧
    (ownerTodos dbSmall user1).length + 1 ≤ (2 : Int).toNat ∧
    (get_todos (create_todo dbSmall ⟨"y", ""⟩ user1).1 user1 1 2).data.count
      (create_todo dbSmall ⟨"y", ""⟩ user1).2 = 1 :=
  ⟨by decide, by decide,
    c4_create_list_roundtrip dbSmall user1 ⟨"y", ""⟩ 2 (by decide) (by decide)⟩

/-- C5 counterexample: the handler issues the owner-filtered query with no
ORDER BY, so the storage may present the same owner rows in either insertion
order or its reverse — both permutations of the same store state.  Under one
permitted order page 1 with limit 1 returns todoA, and under the other
permitted order page 2 with limit 1 also returns todoA: two calls over the
same store state disagree on order, successive pages overlap on todoA and
omit todoB, refuting the claimed stable deterministic order. -/
theorem c5_counterexample :
    List.Perm [todoB, todoA] (ownerTodos db0 user1) ∧
    (get_todos db0 user1 1 1).data = [todoA] ∧
    query_offset_limit [todoB, todoA] ((1 - 1) * 1) 1 ≠ (get_todos db0 user1 1 1).data ∧
    query_offset_limit [todoB, todoA] ((2 - 1) * 1) 1 = [todoA] := by
  refine ⟨by decide, by decide, by decide, by decide⟩

/-- Shared lemma: concatenating the first n pages of size k of a fixed row
list yields its first n * k rows. -/
theorem pages_partition (rows : List Todo) (k : Nat) :
    ∀ n : Nat, ((List.range n).flatMap (fun i => (rows.drop (i * k)).take k)) =
      rows.take (n * k) := by
  intro n
  induction n with
  | zero => simp
  | succ m ih =>
    rw [List.range_succ, List.flatMap_append]
    simp only [List.flatMap_cons, List.flatMap_nil, List.append_nil]
    rw [ih, Nat.succ_mul, List.take_add]

/-- Shared lemma: the data of page i + 1 at natural limit k is the
corresponding drop/take window of the owner's rows. -/
theorem get_todos_page_data (db : DB) (user : User) (i k : Nat) :
    (get_todos db user ((i : Int) + 1) ((k : Int))).data =
      ((ownerTodos db user).drop (i * k)).take k := by
  simp only [get_todos, query_offset_limit]
  have h1 : (((i : Int) + 1 - 1) * (k : Int)).toNat = i * k := by
    have h0 : ((i : Int) + 1 - 1) * (k : Int) = ((i * k : Nat) : Int) := by
      push_cast
      ring
    rw [h0, Int.toNat_ofNat]
  have h2 : ((k : Int)).toNat = k := Int.toNat_ofNat k
  rw [h1, h2]

/-- C5 amended: the code imposes no ordering of its own; relative to the fixed
order in which the storage presents the owner's rows, list is deterministic
(it is a function of the store state) and successive pages partition the
owner's todos without overlap or omission: the concatenation of enough pages
of size k is exactly the owner's row list.  Stability across calls holds only
if the storage's presentation order is itself fixed. -/
theorem c5_deterministic_order (db : DB) (user : User) (k n : Nat)
    (hn : (ownerTodos db user).length ≤ n * k) :
    ((List.range n).flatMap
      (fun i => (get_todos db user ((i : Int) + 1) ((k : Int))).data)) =
      ownerTodos db user := by
  have hfun : (fun i : Nat => (get_todos db user ((i : Int) + 1) ((k : Int))).data) =
      (fun i : Nat => ((ownerTodos db user).drop (i * k)).take k) :=
    funext (fun i => get_todos_page_data db user i k)
  rw [hfun, pages_partition (ownerTodos db user) k n]
  exact List.take_of_length_le hn

/-- Witness for amended C5: two pages of size one exactly exhaust user1's two
todos on the concrete store. -/
theorem c5_deterministic_order_witness :
    (ownerTodos db0 user1).length ≤ 2 * 1 ∧
    ((List.range 2).flatMap
      (fun i => (get_todos db0 user1 ((i : Int) + 1) ((1 : Nat) : Int)).data)) =
      ownerTodos db0 user1 :=
  ⟨by decide, c5_deterministic_order db0 user1 1 2 (by decide)⟩

/-- Shared lemma: the replace-all pass is the identity on any character list
in which the first character of the removed substring never occurs. -/
theorem removeBearerAux_no_b : ∀ n : Nat, ∀ l : List Char, 'B' ∉ l →
    removeBearerAux n l = l := by
  intro n
  induction n with
  | zero => intro l _; rfl
  | succ m ih =>
    intro l hB
    cases l with
    | nil => rfl
    | cons c cs =>
      have hc : ¬ ('B' = c) := by
        intro hc
        apply hB
        rw [hc]
        exact List.mem_cons_self c cs
      have hbc : (('B' : Char) == c) = false := beq_eq_false_iff_ne.mpr hc
      have hpre : ("Bearer ".data.isPrefixOf (c :: cs)) = false := by
        have hd : "Bearer ".data = 'B' :: "earer ".data := rfl
        rw [hd]
        simp [List.isPrefixOf, hbc]
      have htail : 'B' ∉ cs := fun hmem => hB (List.mem_cons_of_mem c hmem)
      simp only [removeBearerAux, hpre, Bool.false_eq_true, if_false, List.cons.injEq,
        true_and]
      exact ih cs htail

/-- Shared lemma: a string accepted by token verification contains no
character of the Bearer scheme label, in particular no capital B. -/
theorem valid_token_no_b (t : String) (hv : (verify_token t).isSome = true) :
    'B' ∉ t.data := by
  unfold verify_token at hv
  by_cases hp : ("token:".data.isPrefixOf t.data) = true
  · simp only [hp, if_true] at hv
    unfold decodeSub at hv
    by_cases he : (t.data.drop 6).isEmpty = true
    · simp [he] at hv
    · by_cases hd : ((t.data.drop 6).all fun c => c.isDigit) = true
      · have hpre : "token:".data <+: t.data := List.isPrefixOf_iff_prefix.mp hp
        obtain ⟨rest, hrest⟩ := hpre
        have hrest6 : t.data.drop 6 = rest := by
          rw [← hrest]
          have h6 : (6 : Nat) = ("token:".data).length := rfl
          rw [h6, List.drop_left]
        intro hBmem
        rw [← hrest] at hBmem
        rcases List.mem_append.mp hBmem with h1 | h2
        · exact absurd h1 (by decide)
        · have hall := List.all_eq_true.mp hd 'B' (by rw [hrest6]; exact h2)
          exact absurd hall (by decide)
      · simp [he, hd] at hv
  · simp [hp] at hv

/-- Shared lemma: the replace-all stripping leaves every valid token
unchanged. -/
theorem removeBearer_of_valid (t : String) (hv : (verify_token t).isSome = true) :
    removeBearer t = t := by
  unfold removeBearer
  rw [removeBearerAux_no_b t.data.length t.data (valid_token_no_b t hv)]

/-- Shared lemma: the fuel of the replace-all pass is irrelevant once it is at
least the length of the list. -/
theorem removeBearerAux_fuel : ∀ n m : Nat, ∀ l : List Char,
    l.length ≤ n → l.length ≤ m → removeBearerAux n l = removeBearerAux m l := by
  intro n
  induction n with
  | zero =>
    intro m l hn _
    have hl : l = [] := List.length_eq_zero.mp (Nat.le_zero.mp hn)
    subst hl
    cases m with
    | zero => rfl
    | succ m2 => rfl
  | succ k ih =>
    intro m l hn hm
    cases l with
    | nil =>
      cases m with
      | zero => rfl
      | succ m2 => rfl
    | cons c cs =>
      cases m with
      | zero => simp at hm
      | succ m2 =>
        simp only [removeBearerAux]
        simp only [List.length_cons] at hn hm
        by_cases hpre : ("Bearer ".data.isPrefixOf (c :: cs)) = true
        · simp only [hpre, if_true]
          apply ih
          · rw [List.length_drop]; omega
          · rw [List.length_drop]; omega
        · simp only [hpre, Bool.false_eq_true, if_false, List.cons.injEq, true_and]
          apply ih <;> omega

/-- Shared lemma: stripping a header of the form Bearer-space followed by t
passes on t with all occurrences of the scheme label removed, exactly
Python str.replace applied to the whole header. -/
theorem removeBearer_append (t : String) :
    removeBearer ("Bearer " ++ t) = removeBearer t := by
  unfold removeBearer
  apply congrArg String.mk
  rw [String.data_append]
  have hstep : ∀ k : Nat, removeBearerAux (k + 1) ("Bearer ".data ++ t.data) =
      removeBearerAux k t.data := by
    intro k
    have hform : "Bearer ".data ++ t.data = 'B' :: ("earer ".data ++ t.data) := rfl
    have hpre : ("Bearer ".data.isPrefixOf ('B' :: ("earer ".data ++ t.data))) = true := by
      rw [List.isPrefixOf_iff_prefix]
      exact ⟨t.data, rfl⟩
    rw [hform]
    simp only [removeBearerAux, hpre, if_true]
    rw [show (6 : Nat) = (['e', 'a', 'r', 'e', 'r', ' '] : List Char).length from rfl,
      List.drop_left]
  have hlen : ("Bearer ".data ++ t.data).length = t.data.length + 7 := by
    rw [List.length_append]
    have h7 : ("Bearer ".data).length = 7 := rfl
    omega
  rw [hlen, show t.data.length + 7 = (t.data.length + 6) + 1 by omega,
    hstep (t.data.length + 6)]
  exact removeBearerAux_fuel (t.data.length + 6) t.data.length t.data (by omega) (by omega)

/-- C7 counterexample: the header Bearer-space-Bearer-space-token:1 is NOT the
scheme label followed by a single space and a valid token (its token part is
not a valid token), yet — because the stripping removes every occurrence of
the scheme label — resolution against a store containing user 1 succeeds
instead of yielding Unauthorized, refuting the universally quantified claim. -/
theorem c7_counterexample :
    (¬ ∃ t : String, ("Bearer " ++ t) = "Bearer Bearer token:1" ∧
      (verify_token t).isSome = true) ∧
    get_current_user "Bearer Bearer token:1" db0 = .ok user1 := by
  constructor
  · rintro ⟨t, ht, hv⟩
    have hdata : "Bearer ".data ++ t.data = "Bearer Bearer token:1".data := by
      rw [← String.data_append, ht]
    have hsplit : "Bearer Bearer token:1".data =
        "Bearer ".data ++ "Bearer token:1".data := by decide
    rw [hsplit] at hdata
    have ht2 : t = "Bearer token:1" := String.ext (List.append_cancel_left hdata)
    rw [ht2] at hv
    exact absurd hv (by decide)
  · rfl

/-- C7 amended: identity resolution is total and uniformly Unauthorized on
failure: a header without the Bearer prefix, a header whose stripped token
does not verify (covering the empty and garbage tokens), and a verified
subject id matching no stored user each yield a 401 error; every error it can
return carries status 401 and every success returns a stored user — except
that a malformed header whose token part becomes valid only after the
replace-all stripping (for instance a doubled scheme label) is accepted
rather than rejected. -/
theorem c7_identity_resolution (authorization : String) (db : DB) :
    (("Bearer ".data.isPrefixOf authorization.data) = false →
      get_current_user authorization db =
        .error ⟨401, "Invalid authorization header"⟩) ∧
    (("Bearer ".data.isPrefixOf authorization.data) = true →
      verify_token (removeBearer authorization) = none →
      get_current_user authorization db = .error ⟨401, "Invalid token"⟩) ∧
    (∀ uid, ("Bearer ".data.isPrefixOf authorization.data) = true →
      verify_token (removeBearer authorization) = some uid →
      db.users.find? (fun u => u.id == uid) = none →
      get_current_user authorization db = .error ⟨401, "User not found"⟩) ∧
    (∀ e, get_current_user authorization db = .error e → e.status_code = 401) ∧
    (∀ u, get_current_user authorization db = .ok u → u ∈ db.users) := by
  refine ⟨fun h1 => ?_, fun h1 h2 => ?_, fun uid h1 h2 h3 => ?_, ?_, ?_⟩
  · simp [get_current_user, h1]
  · simp [get_current_user, h1, h2]
  · simp [get_current_user, h1, h2, h3]
  · intro e he
    unfold get_current_user at he
    split at he
    · split at he
      · injection he with h
        rw [← h]
      · split at he
        · injection he with h
          rw [← h]
        · exact Except.noConfusion he
    · injection he with h
      rw [← h]
  · intro u hu
    unfold get_current_user at hu
    split at hu
    · split at hu
      · exact Except.noConfusion hu
      · split at hu
        · exact Except.noConfusion hu
        · next found hfind =>
            injection hu with h
            rw [← h]
            exact List.mem_of_find?_eq_some hfind
    · exact Except.noConfusion hu

/-- Witness for amended C7 on concrete headers: a missing prefix, an empty
token and a garbage token each produce the 401 outcome. -/
theorem c7_identity_resolution_witness :
    (("Bearer ".data.isPrefixOf "xyz".data) = false ∧
      get_current_user "xyz" db0 = .error ⟨401, "Invalid authorization header"⟩) ∧
    (("Bearer ".data.isPrefixOf "Bearer ".data) = true ∧
      verify_token (removeBearer "Bearer ") = none ∧
      get_current_user "Bearer " db0 = .error ⟨401, "Invalid token"⟩) ∧
    (("Bearer ".data.isPrefixOf "Bearer token:9".data) = true ∧
      verify_token (removeBearer "Bearer token:9") = some 9 ∧
      db0.users.find? (fun u => u.id == 9) = none ∧
      get_current_user "Bearer token:9" db0 = .error ⟨401, "User not found"⟩) :=
  ⟨⟨by decide, (c7_identity_resolution "xyz" db0).1 (by decide)⟩,
    ⟨by decide, by decide,
      (c7_identity_resolution "Bearer " db0).2.1 (by decide) (by decide)⟩,
    ⟨by decide, by decide, by decide,
      (c7_identity_resolution "Bearer token:9" db0).2.2.1 9 (by decide) (by decide)
        (by decide)⟩⟩

/-- C9 counterexample: no syntactically valid credential is rejected by the
replace-all stripping, because every string accepted by token verification is
left unchanged by it — there is no valid token t whose verified string
differs from t, refuting the final consequence of the claim. -/
theorem c9_counterexample :
    ¬ ∃ t : String, (verify_token t).isSome = true ∧ removeBearer t ≠ t := by
  rintro ⟨t, hv, hne⟩
  exact hne (removeBearer_of_valid t hv)

/-- C9 amended: token extraction deletes every occurrence of the scheme label
from the header rather than stripping only the leading prefix: for every
header of the form Bearer-space followed by t, the string passed to
verification is t with all occurrences removed, and for some t containing the
label the verified string differs from t; but since no valid token contains
the label, no syntactically valid credential is rejected — instead a
malformed credential with a doubled label around a valid token is accepted. -/
theorem c9_replace_all_stripping :
    (∀ t : String, removeBearer ("Bearer " ++ t) = removeBearer t) ∧
    removeBearer ("Bearer " ++ "Bearer x") ≠ "Bearer x" ∧
    (∀ t : String, (verify_token t).isSome = true → removeBearer t = t) ∧
    get_current_user ("Bearer " ++ "Bearer token:1") db0 = .ok user1 :=
  ⟨removeBearer_append, by decide, fun t hv => removeBearer_of_valid t hv, rfl⟩

/-- Witness for amended C9: the concrete valid token is left unchanged by the
stripping. -/
theorem c9_replace_all_stripping_witness :
    (verify_token "token:1").isSome = true ∧ removeBearer "token:1" = "token:1" :=
  ⟨by decide, c9_replace_all_stripping.2.2.1 "token:1" (by decide)⟩

/-- Shared lemma: splitting at the separator inverts the salt-separator-rest
concatenation when the salt part is separator-free. -/
theorem splitAtSep_of_append : ∀ s : List Char, ∀ rest : List Char, '$' ∉ s →
    splitAtSep (s ++ '$' :: rest) = some (s, rest) := by
  intro s
  induction s with
  | nil => intro rest _; simp [splitAtSep]
  | cons c cs ih =>
    intro rest h
    have hc : ¬ (c = '$') := by
      intro hc
      apply h
      rw [← hc]
      exact List.mem_cons_self c cs
    have htail : '$' ∉ cs := fun hmem => h (List.mem_cons_of_mem c hmem)
    rw [List.cons_append]
    simp only [splitAtSep, hc, if_false, ih rest htail]

/-- C8: password hash round-trip: for every plaintext (the empty string and
unicode plaintexts included), verifying the plaintext against its own hash
succeeds; verifying any different plaintext against that hash fails; and on a
malformed hash — one with no embedded salt separator — verification returns
false rather than raising (it is a total function). -/
theorem c8_password_hash_roundtrip (salt p q h : String) (hsalt : '$' ∉ salt.data) :
    verify_password p (hash_password salt p) = true ∧
    (q ≠ p → verify_password q (hash_password salt p) = false) ∧
    (splitAtSep h.data = none → verify_password p h = false) := by
  have hdata : ∀ r : String, (hash_password salt r).data = salt.data ++ '$' :: r.data := by
    intro r
    show ((salt ++ "$") ++ r).data = _
    rw [String.data_append, String.data_append, List.append_assoc]
    rfl
  have hsplit : splitAtSep (hash_password salt p).data = some (salt.data, p.data) := by
    rw [hdata p]
    exact splitAtSep_of_append salt.data p.data hsalt
  have hmk : String.mk salt.data = salt := rfl
  refine ⟨?_, fun hqp => ?_, fun hnone => ?_⟩
  · unfold verify_password
    rw [hsplit]
    simp [hmk]
  · unfold verify_password
    rw [hsplit]
    simp only [hmk]
    rw [beq_eq_false_iff_ne]
    intro heq
    apply hqp
    have h1 : (hash_password salt p).data = (hash_password salt q).data := by rw [heq]
    rw [hdata p, hdata q] at h1
    have h3 : '$' :: p.data = '$' :: q.data := List.append_cancel_left h1
    have h4 : p.data = q.data := by simpa using h3
    exact (String.ext h4).symm
  · unfold verify_password
    rw [hnone]

/-- Witness for C8: concrete round-trips for the empty and a unicode
plaintext, a concrete mismatch, and a concrete malformed hash. -/
theorem c8_password_hash_roundtrip_witness :
    ('$' ∉ "s".data) ∧
    verify_password "" (hash_password "s" "") = true ∧
    verify_password "héllo✓" (hash_password "s" "héllo✓") = true ∧
    verify_password "x" (hash_password "s" "y") = false ∧
    verify_password "x" "nohash" = false :=
  ⟨by decide,
    (c8_password_hash_roundtrip "s" "" "" "" (by decide)).1,
    (c8_password_hash_roundtrip "s" "héllo✓" "" "" (by decide)).1,
    (c8_password_hash_roundtrip "s" "y" "x" "" (by decide)).2.1 (by decide),
    (c8_password_hash_roundtrip "s" "x" "" "nohash" (by decide)).2.2 (by decide)⟩

/-- Witness for C1 on the concrete store: caller user2 against user1's todo 1
and the full conclusion of the ownership theorem, plus the concrete Forbidden
and NotFound outcomes. -/
theorem c1_ownership_enforcement_witness :
    ((∀ t1 ∈ db0.todos, ∀ t2 ∈ db0.todos, t1.id = t2.id → t1 = t2) ∧
    (((update_todo db0 1 ⟨"x", ""⟩ user2).2 = .error ⟨404, "Todo not found"⟩ ↔
        ∀ t ∈ db0.todos, t.id ≠ 1) ∧
      ((update_todo db0 1 ⟨"x", ""⟩ user2).2 = .error ⟨403, "Forbidden"⟩ ↔
        ∃ t ∈ db0.todos, t.id = 1 ∧ t.user_id ≠ user2.id) ∧
      ((delete_todo db0 1 user2).2 = .error ⟨404, "Todo not found"⟩ ↔
        ∀ t ∈ db0.todos, t.id ≠ 1) ∧
      ((delete_todo db0 1 user2).2 = .error ⟨403, "Forbidden"⟩ ↔
        ∃ t ∈ db0.todos, t.id = 1 ∧ t.user_id ≠ user2.id) ∧
      (∀ page limit : Int, ∀ t ∈ (get_todos db0 user2 page limit).data,
        t.user_id = user2.id))) ∧
    (update_todo db0 1 ⟨"x", ""⟩ user2).2 = .error ⟨403, "Forbidden"⟩ ∧
    (delete_todo db0 9 user2).2 = .error ⟨404, "Todo not found"⟩ :=
  ⟨⟨by decide, c1_ownership_enforcement db0 user2 (by decide) 1 ⟨"x", ""⟩⟩, rfl, rfl⟩
